import Mathlib

/-!
Verification development for the NexusCrusher champion recommender.

The TypeScript sources are shallowly embedded here:
* machine floating-point numbers are modelled as rationals; rational
  arithmetic is written with the kernel-reducible wrappers `qAdd`, `qSub`,
  `qMul` (proved equal to the ordinary field operations below) so that
  concrete runs of the embedded code can be evaluated by `decide`,
* the JavaScript in-place stable `Array.sort` is modelled as the stable
  `List.insertionSort` together with an explicit post-state for the mutated
  array,
* `Math.random` is modelled by an explicit stream `rand : Nat -> Nat` of draws,
* the on-disk recommendation cache is modelled as an `Option (List _)` value
  holding the fresh cache entry for the requested lane, threaded in and out of
  the functions that read and write it,
* the numeric champion key, stored as a decimal string in the source and read
  back with `Number(champion.key)`, is modelled directly as a natural number.
-/

/-- Rational addition in explicitly normalized form; equal to `+` by
`qAdd_eq` and kernel-reducible, unlike `Rat.add`. -/
def qAdd (a b : ℚ) : ℚ := mkRat (a.num * b.den + b.num * a.den) (a.den * b.den)

/-- Rational subtraction in explicitly normalized form; equal to `-` by
`qSub_eq`. -/
def qSub (a b : ℚ) : ℚ := mkRat (a.num * b.den - b.num * a.den) (a.den * b.den)

/-- Rational multiplication in explicitly normalized form; equal to `*` by
`qMul_eq`. -/
def qMul (a b : ℚ) : ℚ := mkRat (a.num * b.num) (a.den * b.den)

theorem qAdd_eq (a b : ℚ) : qAdd a b = a + b := by
  have ha : (a.den : ℚ) ≠ 0 := Nat.cast_ne_zero.mpr a.den_nz
  have hb : (b.den : ℚ) ≠ 0 := Nat.cast_ne_zero.mpr b.den_nz
  rw [qAdd, Rat.mkRat_eq_div]
  conv_rhs => rw [← Rat.num_div_den a, ← Rat.num_div_den b]
  push_cast
  field_simp

theorem qSub_eq (a b : ℚ) : qSub a b = a - b := by
  have ha : (a.den : ℚ) ≠ 0 := Nat.cast_ne_zero.mpr a.den_nz
  have hb : (b.den : ℚ) ≠ 0 := Nat.cast_ne_zero.mpr b.den_nz
  rw [qSub, Rat.mkRat_eq_div]
  conv_rhs => rw [← Rat.num_div_den a, ← Rat.num_div_den b]
  push_cast
  field_simp
  try ring

theorem qMul_eq (a b : ℚ) : qMul a b = a * b := by
  have ha : (a.den : ℚ) ≠ 0 := Nat.cast_ne_zero.mpr a.den_nz
  have hb : (b.den : ℚ) ≠ 0 := Nat.cast_ne_zero.mpr b.den_nz
  rw [qMul, Rat.mkRat_eq_div]
  conv_rhs => rw [← Rat.num_div_den a, ← Rat.num_div_den b]
  push_cast
  field_simp

/-- Floor of a rational, kernel-reducible. -/
def qFloor (q : ℚ) : ℤ := Int.fdiv q.num q.den

/-- Lane, the closed role enumeration from `src/types.ts`. -/
inductive Lane : Type
  | TOP
  | JUNGLE
  | MID
  | BOTTOM
  | SUPPORT
deriving DecidableEq, Repr

/-- Lowercase rendering of a lane, modelling `lane.toLowerCase()`. -/
def Lane.toLower : Lane → String
  | .TOP => "top"
  | .JUNGLE => "jungle"
  | .MID => "mid"
  | .BOTTOM => "bottom"
  | .SUPPORT => "support"

/-- Per-lane statistics triple from `src/types.ts` (`ChampionLaneStats`). -/
structure ChampionLaneStats where
  winRate : ℚ
  pickRate : ℚ
  score : ℚ
deriving DecidableEq, Repr

/-- The `Record<Lane, ChampionLaneStats>` map of `src/types.ts`, with one
field per lane so that equality stays decidable. -/
structure LaneTable where
  top : ChampionLaneStats
  jungle : ChampionLaneStats
  mid : ChampionLaneStats
  bottom : ChampionLaneStats
  support : ChampionLaneStats
deriving DecidableEq, Repr

/-- Lane lookup in a `LaneTable` (`champion.lanes[lane]`). -/
def LaneTable.get (t : LaneTable) : Lane → ChampionLaneStats
  | .TOP => t.top
  | .JUNGLE => t.jungle
  | .MID => t.mid
  | .BOTTOM => t.bottom
  | .SUPPORT => t.support

/-- Champion record from `src/types.ts`.  The source keeps `key` as a decimal
string and converts it with `Number(champion.key)`; the numeric value is used
directly here. -/
structure Champion where
  id : ℕ
  name : String
  key : ℕ
  title : String
  winRate : ℚ
  pickRate : ℚ
  banRate : ℚ
  tier : Option String
  lanes : LaneTable
deriving DecidableEq, Repr

/-- Recommendation record from `src/types.ts` (`ChampionRecommendation`). -/
structure ChampionRecommendation where
  champion : Champion
  score : ℚ
  reasons : List String
  counters : Option (List String)
  counteredBy : Option (List String)
deriving DecidableEq, Repr

/-- JavaScript truthiness of an optional champion id (`if (enemyChampionId)`),
false for `null`/`undefined` and for `0`. -/
def truthy : Option ℕ → Bool
  | none => false
  | some n => n != 0

/-- One entry of the static matchup table in `src/data/matchups.ts`. -/
structure MatchupEntry where
  counters : List ℕ
  counteredBy : List ℕ
deriving DecidableEq, Repr

/-- The static `championMatchups` table of `src/data/matchups.ts`, keyed by
champion id. -/
def championMatchups (championId : ℕ) : Option MatchupEntry :=
  if championId = 266 then some ⟨[122, 114, 8, 86], [23, 24, 36, 420]⟩
  else if championId = 103 then some ⟨[55, 99, 7, 26], [238, 38, 134, 90]⟩
  else if championId = 84 then some ⟨[91, 127, 74, 43], [75, 7, 90, 34]⟩
  else if championId = 12 then some ⟨[412, 40, 37, 497], [25, 111, 201, 223]⟩
  else if championId = 32 then some ⟨[19, 31, 28, 254], [77, 2, 56, 11]⟩
  else if championId = 1 then some ⟨[74, 112, 7, 61], [238, 38, 161, 91]⟩
  else if championId = 22 then some ⟨[119, 67, 81, 42], [202, 236, 429, 51]⟩
  else if championId = 136 then some ⟨[112, 99, 268, 61], [238, 91, 55, 105]⟩
  else if championId = 268 then some ⟨[99, 61, 101, 134], [238, 91, 105, 7]⟩
  else if championId = 432 then some ⟨[40, 37, 16, 412], [111, 201, 412, 53]⟩
  else if championId = 53 then some ⟨[40, 37, 16, 350], [25, 111, 412, 223]⟩
  else none

/-- `getChampionsCounteredBy` from `src/data/matchups.ts`: the champions a
given champion counters (`championMatchups[championId]?.counters || []`). -/
def getChampionsCounteredBy (championId : ℕ) : List ℕ :=
  ((championMatchups championId).map (fun e => e.counters)).getD []

/-- `getChampionCounters` from `src/data/matchups.ts`: the champions that
counter a given champion (`championMatchups[championId]?.counteredBy || []`). -/
def getChampionCounters (championId : ℕ) : List ℕ :=
  ((championMatchups championId).map (fun e => e.counteredBy)).getD []

/-- `getChampionNameById` from `src/data/matchups.ts`, with the synthetic
fallback label for unknown ids. -/
def getChampionNameById (championId : ℕ) : String :=
  if championId = 266 then "Aatrox"
  else if championId = 103 then "Ahri"
  else if championId = 84 then "Akali"
  else if championId = 12 then "Alistar"
  else if championId = 32 then "Amumu"
  else if championId = 1 then "Annie"
  else if championId = 22 then "Ashe"
  else if championId = 136 then "Aurelion Sol"
  else if championId = 268 then "Azir"
  else if championId = 432 then "Bard"
  else if championId = 53 then "Blitzcrank"
  else
    let cid := championId
    s!"Champion {cid}"

/-- Rendering of `(q).toFixed(1)` for the non-negative rates interpolated into
reason strings: round to one decimal place. -/
def toFixed1 (q : ℚ) : String :=
  let n := qFloor (qAdd (qMul q 10) (mkRat 1 2))
  let i := n / 10
  let f := (n % 10).natAbs
  s!"{i}.{f}"

/-- The fixed high-skill roster of `ChampionRecommender.isHighSkillChampion`
in `src/utils/recommender.ts`. -/
def isHighSkillChampion (championName : String) : Bool :=
  ["Akali", "Azir", "Camille", "Gangplank", "Irelia",
   "Lee Sin", "Riven", "Yasuo", "Zed", "Fiora",
   "Kalista", "Thresh", "Nidalee", "Cassiopeia",
   "Draven", "Katarina", "LeBlanc", "Qiyana", "Syndra",
   "Aphelios", "Aurelion Sol", "Pyke", "Elise", "Kayn",
   "Jayce", "Rengar", "Twisted Fate", "Zilean"].contains championName

/-- The fixed per-champion lane-synergy table of
`ChampionRecommender.hasLaneSynergy` in `src/utils/recommender.ts`. -/
def laneSynergies : List (String × List Lane) :=
  [("Aatrox", [.TOP]), ("Ahri", [.MID]), ("Alistar", [.SUPPORT]),
   ("Amumu", [.JUNGLE]), ("Ashe", [.BOTTOM]), ("Blitzcrank", [.SUPPORT]),
   ("Darius", [.TOP]), ("Lee Sin", [.JUNGLE]), ("Orianna", [.MID]),
   ("Thresh", [.SUPPORT]), ("Vayne", [.BOTTOM]), ("Zed", [.MID]),
   ("Jarvan IV", [.JUNGLE]), ("Leona", [.SUPPORT]), ("Renekton", [.TOP]),
   ("Caitlyn", [.BOTTOM]), ("Janna", [.SUPPORT]),
   ("Malphite", [.TOP, .SUPPORT]), ("Syndra", [.MID]),
   ("Twisted Fate", [.MID]), ("Vi", [.JUNGLE]), ("Kennen", [.TOP, .MID]),
   ("Yuumi", [.SUPPORT]), ("Zac", [.JUNGLE]),
   ("Xerath", [.MID, .SUPPORT]), ("Garen", [.TOP]), ("Katarina", [.MID]),
   ("Miss Fortune", [.BOTTOM]), ("Nami", [.SUPPORT]),
   ("Sett", [.TOP, .SUPPORT])]

/-- `ChampionRecommender.hasLaneSynergy` from `src/utils/recommender.ts`. -/
def hasLaneSynergy (championName : String) (lane : Lane) : Bool :=
  match laneSynergies.find? (fun p => p.1 = championName) with
  | some p => p.2.contains lane
  | none => false

/-- The win-rate band of `ChampionRecommender.createRecommendation`
(`src/utils/recommender.ts`): score adjustment and reason. -/
def winAdjust (laneStats : ChampionLaneStats) : ℚ × List String :=
  if laneStats.winRate > mkRat 53 100 then
    let p := toFixed1 (qMul laneStats.winRate 100)
    (1, [s!"High win rate ({p}%)"])
  else if laneStats.winRate > mkRat 51 100 then
    let p := toFixed1 (qMul laneStats.winRate 100)
    (mkRat 1 2, [s!"Above average win rate ({p}%)"])
  else if laneStats.winRate < mkRat 47 100 then
    let p := toFixed1 (qMul laneStats.winRate 100)
    (0, [s!"Challenging to master ({p}% win rate)"])
  else (0, [])

/-- The pick-rate band of `ChampionRecommender.createRecommendation`: an
exclusive if/else-if chain checked in the order `> 0.15`, `> 0.1`, `< 0.03`,
`< 0.01`. -/
def pickAdjust (laneStats : ChampionLaneStats) : ℚ × List String :=
  if laneStats.pickRate > mkRat 15 100 then
    let p := toFixed1 (qMul laneStats.pickRate 100)
    (mkRat 7 10, [s!"Very popular pick ({p}%)"])
  else if laneStats.pickRate > mkRat 1 10 then
    let p := toFixed1 (qMul laneStats.pickRate 100)
    (mkRat 1 2, [s!"Popular pick ({p}%)"])
  else if laneStats.pickRate < mkRat 3 100 then
    (mkRat 3 10, ["Uncommon pick - may surprise opponents"])
  else if laneStats.pickRate < mkRat 1 100 then
    (mkRat 2 5, ["Rare pick - opponents likely unfamiliar with matchup"])
  else (0, [])

/-- The tier band of `ChampionRecommender.createRecommendation`. -/
def tierAdjust (tier : Option String) : ℚ × List String :=
  if tier = some "S" then
    (mkRat 12 10, ["S-tier powerhouse in the current meta"])
  else if tier = some "A" then
    (mkRat 8 10, ["A-tier strong pick in the current meta"])
  else if tier = some "B" then
    (mkRat 2 5, ["Solid B-tier choice"])
  else if tier = some "D" then
    (mkRat (-3) 10, ["Currently underperforming in the meta"])
  else (0, [])

/-- The ban-rate band of `ChampionRecommender.createRecommendation`. -/
def banAdjust (banRate : ℚ) : ℚ × List String :=
  if banRate > mkRat 2 10 then
    let p := toFixed1 (qMul banRate 100)
    (mkRat 1 2, [s!"Frequently banned ({p}%) - very strong currently"])
  else if banRate > mkRat 1 10 then
    let p := toFixed1 (qMul banRate 100)
    (mkRat 3 10, [s!"Often banned ({p}%) - strong pick"])
  else (0, [])

/-- The skill-ceiling band of `ChampionRecommender.createRecommendation`. -/
def skillAdjust (championName : String) (laneStats : ChampionLaneStats) :
    ℚ × List String :=
  if isHighSkillChampion championName then
    if laneStats.winRate > mkRat 1 2 then
      (mkRat 2 5, ["High skill ceiling but rewarding when mastered"])
    else
      (0, ["High skill ceiling - requires practice"])
  else (0, [])

/-- The lane-synergy band of `ChampionRecommender.createRecommendation`. -/
def synergyAdjust (championName : String) (lane : Lane) : ℚ × List String :=
  if hasLaneSynergy championName lane then
    let ll := lane.toLower
    (mkRat 3 5, [s!"Particularly strong in {ll} role"])
  else (0, [])

/-- The statistics-driven portion of `ChampionRecommender.createRecommendation`
(`src/utils/recommender.ts`), covering the win-rate, pick-rate, tier, ban-rate,
skill-ceiling and lane-synergy bands and the final at-least-one-reason
guarantee.  Returns the accumulated score and the reasons in push order. -/
def statPart (champion : Champion) (lane : Lane) : ℚ × List String :=
  let laneStats := champion.lanes.get lane
  let winPart := winAdjust laneStats
  let pickPart := pickAdjust laneStats
  let tierPart := tierAdjust champion.tier
  let banPart := banAdjust champion.banRate
  let skillPart := skillAdjust champion.name laneStats
  let synergyPart := synergyAdjust champion.name lane
  let reasons0 :=
    winPart.2 ++ pickPart.2 ++ tierPart.2 ++ banPart.2 ++
      skillPart.2 ++ synergyPart.2
  let reasons :=
    if reasons0.isEmpty then
      let ll := lane.toLower
      [s!"Decent overall performance in {ll}"]
    else reasons0
  (qAdd (qAdd (qAdd (qAdd (qAdd (qAdd laneStats.score winPart.1) pickPart.1)
     tierPart.1) banPart.1) skillPart.1) synergyPart.1,
   reasons)

/-- `ChampionRecommender.createRecommendation` from `src/utils/recommender.ts`:
the statistics bands of `statPart` followed by the matchup block guarded by the
truthiness of the enemy champion id. -/
def createRecommendation (champion : Champion) (lane : Lane)
    (enemyChampionId : Option ℕ) : ChampionRecommendation :=
  let sp := statPart champion lane
  if truthy enemyChampionId then
    let eid := enemyChampionId.getD 0
    let counterHit := (getChampionsCounteredBy champion.key).contains eid
    let counteredHit := (getChampionCounters champion.key).contains eid
    let enemyName := getChampionNameById eid
    let score1 := if counterHit then qAdd sp.1 15 else sp.1
    let score2 := if counteredHit then qSub score1 10 else score1
    let reasons1 :=
      if counterHit then sp.2 ++ [s!"Strong counter against {enemyName}"]
      else sp.2
    let reasons2 :=
      if counteredHit then
        reasons1 ++ [s!"Be careful - countered by {enemyName}"]
      else reasons1
    { champion := champion
      score := score2
      reasons := reasons2
      counters := if counterHit then some [enemyName] else none
      counteredBy := if counteredHit then some [enemyName] else none }
  else
    { champion := champion
      score := sp.1
      reasons := sp.2
      counters := none
      counteredBy := none }

/-- Descending order on per-lane base score, modelling the stable JavaScript
comparator `(a, b) => b.lanes[lane].score - a.lanes[lane].score`.  The stable
`Array.prototype.sort` is modelled by `List.insertionSort` with this relation,
which is likewise a stable sort. -/
def laneRel (lane : Lane) (a b : Champion) : Prop :=
  (b.lanes.get lane).score ≤ (a.lanes.get lane).score

instance (lane : Lane) : DecidableRel (laneRel lane) := fun a b =>
  inferInstanceAs (Decidable ((b.lanes.get lane).score ≤ (a.lanes.get lane).score))

instance (lane : Lane) : IsTotal Champion (laneRel lane) :=
  ⟨fun a b => le_total (b.lanes.get lane).score (a.lanes.get lane).score⟩

instance (lane : Lane) : IsTrans Champion (laneRel lane) :=
  ⟨fun _ _ _ hab hbc => le_trans hbc hab⟩

/-- Descending order on recommendation score, modelling the stable JavaScript
comparator `(a, b) => b.score - a.score`. -/
def recRel (a b : ChampionRecommendation) : Prop :=
  b.score ≤ a.score

instance : DecidableRel recRel := fun a b =>
  inferInstanceAs (Decidable (b.score ≤ a.score))

instance : IsTotal ChampionRecommendation recRel :=
  ⟨fun a b => le_total b.score a.score⟩

instance : IsTrans ChampionRecommendation recRel :=
  ⟨fun _ _ _ hab hbc => le_trans hbc hab⟩

/-- `ChampionRecommender.getTraditionalRecommendations` from
`src/utils/recommender.ts`: sort by base lane score, keep the top
`count * 2`, score each candidate, sort by final score, keep `count`. -/
def getTraditionalRecommendations (champions : List Champion) (lane : Lane)
    (count : ℕ) (enemyChampionId : Option ℕ) : List ChampionRecommendation :=
  let topChampions := (champions.insertionSort (laneRel lane)).take (count * 2)
  let recommendations :=
    topChampions.map (fun c => createRecommendation c lane enemyChampionId)
  (recommendations.insertionSort recRel).take count

/-- Uniform lane table used by concrete test champions below. -/
def flatLanes (winRate pickRate score : ℚ) : LaneTable :=
  { top := ⟨winRate, pickRate, score⟩, jungle := ⟨winRate, pickRate, score⟩,
    mid := ⟨winRate, pickRate, score⟩, bottom := ⟨winRate, pickRate, score⟩,
    support := ⟨winRate, pickRate, score⟩ }

example :
    (statPart
      { id := 1, name := "Aaa", key := 1, title := "t", winRate := mkRat 1 2,
        pickRate := mkRat 1 20, banRate := 0, tier := none,
        lanes := flatLanes (mkRat 1 2) (mkRat 1 20) 5 }
      Lane.TOP).1 = 5 := by decide

example :
    (statPart
      { id := 1, name := "Aaa", key := 1, title := "t", winRate := mkRat 1 2,
        pickRate := mkRat 1 20, banRate := 0, tier := none,
        lanes := flatLanes (mkRat 1 2) (mkRat 1 20) 5 }
      Lane.TOP).2 = ["Decent overall performance in top"] := by decide

example :
    (createRecommendation
      { id := 266, name := "Aatrox", key := 266, title := "t",
        winRate := mkRat 1 2, pickRate := mkRat 1 20, banRate := 0,
        tier := none, lanes := flatLanes (mkRat 1 2) (mkRat 1 20) 5 }
      Lane.JUNGLE (some 122)).score = 20 := by decide

/-- The champion archetypes table of `AIRecommender.simulateAIRecommendations`
in `src/api/external/aiRecommender.ts`, in insertion order. -/
def archetypesTable : List (String × List String) :=
  [("tank", ["Ornn", "Sion", "Malphite", "Maokai", "Sejuani", "Alistar",
     "Leona", "Nautilus"]),
   ("bruiser", ["Darius", "Garen", "Aatrox", "Mordekaiser", "Sett", "Illaoi",
     "Renekton", "Volibear"]),
   ("assassin", ["Zed", "Talon", "Akali", "Katarina", "Fizz", "Qiyana",
     "Kha\x27Zix", "Rengar", "Pyke"]),
   ("mage", ["Ahri", "Syndra", "Orianna", "Lux", "Xerath", "Vel\x27Koz",
     "Viktor", "Cassiopeia", "Annie"]),
   ("marksman", ["Ashe", "Caitlyn", "Jinx", "Jhin", "Ezreal", "Vayne",
     "Miss Fortune", "Kai\x27Sa"]),
   ("enchanter", ["Janna", "Lulu", "Nami", "Soraka", "Yuumi", "Sona",
     "Karma"]),
   ("engage", ["Leona", "Nautilus", "Thresh", "Blitzcrank", "Alistar",
     "Rakan"]),
   ("splitpusher", ["Fiora", "Jax", "Tryndamere", "Yorick", "Nasus"]),
   ("utility", ["Thresh", "Bard", "Janna", "Morgana", "Lulu"])]

/-- `getArchetype` from `AIRecommender.simulateAIRecommendations`: all
archetype names whose roster contains the champion, defaulting to
`versatile`. -/
def getArchetype (c : Champion) : List String :=
  let types := (archetypesTable.filter (fun p => p.2.contains c.name)).map
    (fun p => p.1)
  if types.isEmpty then ["versatile"] else types

/-- `getLaneSpecificReason` from `AIRecommender.simulateAIRecommendations`. -/
def getLaneSpecificReason (c : Champion) (lane : Lane) : String :=
  let archetype := getArchetype c
  match lane with
  | .TOP =>
    if archetype.contains "tank" then
      "Provides strong frontline presence for your team"
    else if archetype.contains "bruiser" then
      "Can dominate lane and scale into mid-game"
    else if archetype.contains "splitpusher" then
      "Excellent split-push pressure forcing enemy responses"
    else "Good lane sustain and trading potential"
  | .JUNGLE =>
    if archetype.contains "tank" then
      "Strong engage potential for ganks and teamfights"
    else if archetype.contains "assassin" then
      "High burst damage for successful ganks"
    else if archetype.contains "bruiser" then
      "Good balance of damage and durability for skirmishes"
    else "Efficient clear speed and objective control"
  | .MID =>
    if archetype.contains "mage" then
      "Strong waveclear and scaling for team fights"
    else if archetype.contains "assassin" then
      "Roaming potential to snowball other lanes"
    else if archetype.contains "utility" then
      "Map presence and utility for team coordination"
    else "Good lane priority for supporting jungler"
  | .BOTTOM =>
    if archetype.contains "marksman" then
      "Consistent damage output in teamfights"
    else if archetype.contains "mage" then
      "Strong lane poke and mid-game power spike"
    else "Scales well with items and support synergy"
  | .SUPPORT =>
    if archetype.contains "enchanter" then
      "Protective abilities to keep carries alive"
    else if archetype.contains "engage" then
      "Strong initiation to create pick opportunities"
    else if archetype.contains "utility" then
      "Versatile utility throughout all game phases"
    else if archetype.contains "mage" then
      "Lane dominance and additional damage source"
    else "Vision control and team coordination"

/-- `getGamePhaseStrengths` from `AIRecommender.simulateAIRecommendations`:
early/mid/late strengths accumulated per archetype and clamped to 1..10. -/
def getGamePhaseStrengths (c : Champion) : ℤ × ℤ × ℤ :=
  let a := getArchetype c
  let s0 : ℤ × ℤ × ℤ := (5, 5, 5)
  let s1 := if a.contains "tank" then (s0.1 + 1, s0.2.1 + 2, s0.2.2 + 3)
    else s0
  let s2 := if a.contains "bruiser" then (s1.1 + 2, s1.2.1 + 3, s1.2.2 + 1)
    else s1
  let s3 := if a.contains "assassin" then (s2.1 + 1, s2.2.1 + 4, s2.2.2 + 0)
    else s2
  let s4 := if a.contains "mage" then (s3.1 + 0, s3.2.1 + 2, s3.2.2 + 3)
    else s3
  let s5 := if a.contains "marksman" then (s4.1 - 1, s4.2.1 + 1, s4.2.2 + 4)
    else s4
  let s6 := if a.contains "enchanter" then (s5.1 + 0, s5.2.1 + 1, s5.2.2 + 3)
    else s5
  let s7 := if a.contains "splitpusher" then (s6.1 - 1, s6.2.1 + 2, s6.2.2 + 3)
    else s6
  (max 1 (min 10 s7.1), max 1 (min 10 s7.2.1), max 1 (min 10 s7.2.2))

/-- `AIRecommender.getTeamCompReason` from
`src/api/external/aiRecommender.ts`; the champion argument of the source is
unused there and omitted here. -/
def getTeamCompReason (archetypes : List String) : Option String :=
  if archetypes.contains "tank" then
    some "Provides much-needed tankiness for balanced team compositions"
  else if archetypes.contains "assassin" then
    some "Offers backline access to eliminate priority targets"
  else if archetypes.contains "mage" then
    some "Brings valuable magical damage to balance team damage profile"
  else if archetypes.contains "marksman" then
    some "Provides consistent damage output needed in extended fights"
  else if archetypes.contains "enchanter" then
    some "Offers team-wide protection and sustain"
  else if archetypes.contains "engage" then
    some "Provides reliable fight initiation to secure objectives"
  else if archetypes.contains "utility" then
    some "Brings versatile utility to enable teammates"
  else none

/-- `AIRecommender.getChampionIntro` from `src/api/external/aiRecommender.ts`:
the five intro sentences; the source picks one with `Math.random`, modelled by
the explicit index `k`. -/
def getChampionIntro (c : Champion) (lane : Lane) (k : ℕ) : String :=
  let n := c.name
  let ll := lane.toLower
  [s!"{n} excels in the {ll} role",
   s!"{n} is particularly effective as a {ll} champion",
   s!"As {n}, you can dominate the {ll} position",
   s!"{n} brings unique strengths to the {ll} role",
   s!"{n}\x27s kit is well-suited for {ll}"].getD k ""

/-- Scoring and reasons for one champion inside
`AIRecommender.simulateAIRecommendations`: meta-weighted base score, matchup
adjustment, lane-archetype multiplier, game-phase addition, then the reason
list in push order. -/
def simulateOne (lane : Lane) (enemyChampionId : Option ℕ) (c : Champion) :
    ChampionRecommendation :=
  let ls := c.lanes.get lane
  let archetype := getArchetype c
  let gp := getGamePhaseStrengths c
  let score0 :=
    qAdd (qAdd (qAdd (qMul (qMul ls.winRate (mkRat 35 100)) 100)
      (qMul (qMul ls.pickRate (mkRat 15 100)) 100))
      (qMul (qMul c.banRate (mkRat 2 10)) 100))
      (qMul ls.score (mkRat 3 10))
  let eid := enemyChampionId.getD 0
  let counterHit :=
    truthy enemyChampionId && (getChampionsCounteredBy c.key).contains eid
  let counteredHit :=
    truthy enemyChampionId && (getChampionCounters c.key).contains eid
  let enemyName := getChampionNameById eid
  let counters : List String := if counterHit then [enemyName] else []
  let counteredBy : List String := if counteredHit then [enemyName] else []
  let score1 := if counterHit then qAdd score0 15 else score0
  let score2 := if counteredHit then qSub score1 10 else score1
  let multApplies :=
    match lane with
    | .TOP => archetype.contains "tank" || archetype.contains "bruiser" ||
        archetype.contains "splitpusher"
    | .JUNGLE => archetype.contains "tank" || archetype.contains "assassin"
    | .MID => archetype.contains "mage" || archetype.contains "assassin"
    | .BOTTOM => archetype.contains "marksman"
    | .SUPPORT => archetype.contains "enchanter" ||
        archetype.contains "engage" || archetype.contains "utility"
  let mult : ℚ :=
    match lane with
    | .TOP => mkRat 12 10
    | .JUNGLE => mkRat 125 100
    | .MID => mkRat 12 10
    | .BOTTOM => mkRat 125 100
    | .SUPPORT => mkRat 12 10
  let score3 := if multApplies then qMul score2 mult else score2
  let score4 :=
    qAdd score3 (qAdd (qAdd (qMul (gp.1 : ℚ) (mkRat 1 2))
      (qMul (gp.2.1 : ℚ) (mkRat 3 10))) (qMul (gp.2.2 : ℚ) (mkRat 1 5)))
  let winReasons : List String :=
    if ls.winRate > mkRat 53 100 then
      let p := toFixed1 (qMul ls.winRate 100)
      [s!"High win rate ({p}%)"]
    else if ls.winRate > mkRat 1 2 then
      let p := toFixed1 (qMul ls.winRate 100)
      [s!"Solid win rate ({p}%)"]
    else []
  let phaseReasons : List String :=
    if gp.1 > 7 then ["Strong early game presence"]
    else if gp.2.1 > 7 then ["Powerful mid-game spike"]
    else if gp.2.2 > 7 then ["Excellent late-game scaling"]
    else []
  let tierReasons : List String :=
    if c.tier = some "S" then ["Currently S-tier in the meta"]
    else if c.tier = some "A" then ["Strong A-tier pick in the current meta"]
    else []
  let tcReasons : List String :=
    match getTeamCompReason archetype with
    | some r => [r]
    | none => []
  let counterReasons : List String :=
    if counterHit then [s!"Strong counter against {enemyName}"] else []
  let counteredReasons : List String :=
    if counteredHit then [s!"Be careful - countered by {enemyName}"] else []
  { champion := c
    score := score4
    reasons := winReasons ++ [getLaneSpecificReason c lane] ++ phaseReasons ++
      tierReasons ++ tcReasons ++ counterReasons ++ counteredReasons
    counters := if counters.isEmpty then none else some counters
    counteredBy := if counteredBy.isEmpty then none else some counteredBy }

/-- The final map of `AIRecommender.simulateAIRecommendations` that prepends a
randomly chosen intro sentence to each ranked recommendation; the successive
`Math.random` draws are the values of `rand` at successive indices. -/
def addIntros (lane : Lane) (rand : ℕ → ℕ) : ℕ →
    List ChampionRecommendation → List ChampionRecommendation
  | _, [] => []
  | i, r :: rest =>
    { r with reasons := getChampionIntro r.champion lane (rand i % 5) ::
        r.reasons } :: addIntros lane rand (i + 1) rest

/-- `AIRecommender.simulateAIRecommendations` from
`src/api/external/aiRecommender.ts`: score every candidate, sort by score,
keep `count`, then prepend the random intros. -/
def simulateAIRecommendations (champions : List Champion) (lane : Lane)
    (count : ℕ) (enemyChampionId : Option ℕ) (rand : ℕ → ℕ) :
    List ChampionRecommendation :=
  let scoredChampions := champions.map (simulateOne lane enemyChampionId)
  let result := (scoredChampions.insertionSort recRel).take count
  addIntros lane rand 0 result

/-- `AIRecommender.loadFromCache` from `src/api/external/aiRecommender.ts`.
The cache argument stands for the per-lane entry of a fresh (younger than one
hour) cache file, `none` when the file is missing, stale, unreadable or has no
entry for the lane; the emptiness check on the stored array is the source
`Array.isArray(data[lane]) && data[lane].length > 0` validation. -/
def loadFromCache (cache : Option (List ChampionRecommendation)) :
    Option (List ChampionRecommendation) :=
  match cache with
  | none => none
  | some l => if 0 < l.length then some l else none

/-- The compute path of `AIRecommender.getRecommendations`: sort (mutating the
champion array), keep `count * 3` candidates, run the simulated AI scoring
(the environment has no AI api key, so `simulateAIRecommendations` is the path
taken), and save the result to the cache.  Returns the result together with
the new cache entry. -/
def aiCompute (champions : List Champion) (lane : Lane) (count : ℕ)
    (enemyChampionId : Option ℕ) (rand : ℕ → ℕ) :
    List ChampionRecommendation × Option (List ChampionRecommendation) :=
  let topChampions := (champions.insertionSort (laneRel lane)).take (count * 3)
  let recommendations :=
    simulateAIRecommendations topChampions lane count enemyChampionId rand
  (recommendations, some recommendations)

/-- `AIRecommender.getRecommendations` from
`src/api/external/aiRecommender.ts`: serve the first `count` cached entries
when the fresh cache holds at least `count`, otherwise compute and cache. -/
def aiGetRecommendations (cache : Option (List ChampionRecommendation))
    (champions : List Champion) (lane : Lane) (count : ℕ)
    (enemyChampionId : Option ℕ) (rand : ℕ → ℕ) :
    List ChampionRecommendation × Option (List ChampionRecommendation) :=
  match loadFromCache cache with
  | some cached =>
    if count ≤ cached.length then (cached.take count, cache)
    else aiCompute champions lane count enemyChampionId rand
  | none => aiCompute champions lane count enemyChampionId rand

/-- `ChampionRecommender.getRecommendations` from `src/utils/recommender.ts`:
use the AI recommendations when non-empty, otherwise fall back to the
traditional algorithm.  On the compute path the champion array reaching the
fallback has already been sorted in place by the AI recommender. -/
def recommend (cache : Option (List ChampionRecommendation))
    (champions : List Champion) (lane : Lane) (count : ℕ)
    (enemyChampionId : Option ℕ) (rand : ℕ → ℕ) :
    List ChampionRecommendation × Option (List ChampionRecommendation) :=
  match loadFromCache cache with
  | some cached =>
    if count ≤ cached.length then
      let ai := cached.take count
      if 0 < ai.length then (ai, cache)
      else (getTraditionalRecommendations champions lane count enemyChampionId,
        cache)
    else recommendCompute champions lane count enemyChampionId rand
  | none => recommendCompute champions lane count enemyChampionId rand
where
  recommendCompute (champions : List Champion) (lane : Lane) (count : ℕ)
      (enemyChampionId : Option ℕ) (rand : ℕ → ℕ) :
      List ChampionRecommendation × Option (List ChampionRecommendation) :=
    let champions1 := champions.insertionSort (laneRel lane)
    let recs := simulateAIRecommendations (champions1.take (count * 3)) lane
      count enemyChampionId rand
    if 0 < recs.length then (recs, some recs)
    else (getTraditionalRecommendations champions1 lane count enemyChampionId,
      some recs)

/-- Post-state of the champion array owned by the Statistics Store after a
`recommend` call: JavaScript `Array.prototype.sort` mutates in place, so on
every compute path the array ends up sorted by the requested lane score; the
traditional fallback sorts it a second time. -/
def champsAfterRecommend (cache : Option (List ChampionRecommendation))
    (champions : List Champion) (lane : Lane) (count : ℕ)
    (enemyChampionId : Option ℕ) (rand : ℕ → ℕ) : List Champion :=
  match loadFromCache cache with
  | some cached =>
    if count ≤ cached.length then
      let ai := cached.take count
      if 0 < ai.length then champions
      else (champions.insertionSort (laneRel lane))
    else champsAfterCompute champions lane count enemyChampionId rand
  | none => champsAfterCompute champions lane count enemyChampionId rand
where
  champsAfterCompute (champions : List Champion) (lane : Lane) (count : ℕ)
      (enemyChampionId : Option ℕ) (rand : ℕ → ℕ) : List Champion :=
    let champions1 := champions.insertionSort (laneRel lane)
    let recs := simulateAIRecommendations (champions1.take (count * 3)) lane
      count enemyChampionId rand
    if 0 < recs.length then champions1
    else champions1.insertionSort (laneRel lane)

/-- The mutable session-tracking state of `main` in `src/index.ts`:
`inChampSelect`, `currentLane` and `lastSeenEnemyChampion`. -/
structure TrackState where
  inChampSelect : Bool
  currentLane : Option Lane
  lastSeenEnemy : Option ℕ
deriving DecidableEq, Repr

/-- One delivery of the `onChampSelect` callback of `main` in `src/index.ts`.
`newLane` is the role `getAssignedLane` resolves from the snapshot and
`enemyId` the opponent `getLaneOpponent` resolves; the result pairs the new
tracking state with the number of Engine invocations
(`showLaneRecommendations` calls) the callback performed. -/
def champSelectStep (s : TrackState) (newLane : Option Lane)
    (enemyId : Option ℕ) : TrackState × ℕ :=
  if s.inChampSelect = false then
    ({ inChampSelect := true, currentLane := newLane,
       lastSeenEnemy := s.lastSeenEnemy },
     if newLane.isSome then 1 else 0)
  else
    let roleFires : Bool :=
      match newLane with
      | some l => decide (s.currentLane ≠ some l)
      | none => false
    let lane1 := if roleFires then newLane else s.currentLane
    let oppFires : Bool :=
      truthy enemyId && lane1.isSome && decide (enemyId ≠ s.lastSeenEnemy)
    let lastSeen1 := if oppFires then enemyId else s.lastSeenEnemy
    ({ inChampSelect := true, currentLane := lane1,
       lastSeenEnemy := lastSeen1 },
     (if roleFires then 1 else 0) + (if oppFires then 1 else 0))

/-- A run of consecutive `onChampSelect` deliveries, accumulating the number
of Engine invocations. -/
def champSelectRun (s : TrackState) :
    List (Option Lane × Option ℕ) → TrackState × ℕ
  | [] => (s, 0)
  | (r, e) :: rest =>
    let step := champSelectStep s r e
    let next := champSelectRun step.1 rest
    (next.1, step.2 + next.2)

/-- The recognized shell lane arguments of the `recommend` command in
`src/index.ts`. -/
def shellLaneList : List String :=
  ["TOP", "JUNGLE", "MID", "MIDDLE", "BOT", "BOTTOM", "ADC", "SUPPORT", "SUP"]

/-- The `laneMapping` record of the `recommend` command in `src/index.ts`. -/
def shellLaneMapping (s : String) : Option Lane :=
  if s = "TOP" then some .TOP
  else if s = "JUNGLE" then some .JUNGLE
  else if s = "MID" then some .MID
  else if s = "MIDDLE" then some .MID
  else if s = "BOT" then some .BOTTOM
  else if s = "BOTTOM" then some .BOTTOM
  else if s = "ADC" then some .BOTTOM
  else if s = "SUPPORT" then some .SUPPORT
  else if s = "SUP" then some .SUPPORT
  else none

/-- ASCII uppercasing of a string, modelling `arg.toUpperCase()`; written via
the character list so that it evaluates in the kernel. -/
def strUpper (s : String) : String := ⟨s.data.map Char.toUpper⟩

/-- Shell-argument canonicalization in `src/index.ts`: uppercase the argument,
accept it only when it is in the recognized list, and map it through
`laneMapping`; anything else leaves the lane unset. -/
def shellCanonLane (arg : String) : Option Lane :=
  let u := strUpper arg
  if shellLaneList.contains u then shellLaneMapping u else none

/-- The client-session position map, as the inline `laneMap` of
`LcuApi.getAssignedLane` in `src/api/lcuApi.ts` and the identical
`laneMap` of `src/data/laneMap.ts` (`laneMap[assignedPosition] || null`). -/
def clientLaneMap (position : String) : Option Lane :=
  if position = "TOP" then some .TOP
  else if position = "JUNGLE" then some .JUNGLE
  else if position = "MIDDLE" then some .MID
  else if position = "BOTTOM" then some .BOTTOM
  else if position = "UTILITY" then some .SUPPORT
  else none

/-! ### Structural lemmas about the embedded recommenders -/

theorem statPart_reasons_ne (c : Champion) (lane : Lane) :
    (statPart c lane).2 ≠ [] := by
  unfold statPart
  simp only []
  split
  · simp
  · next h =>
    simpa [List.isEmpty_iff] using h

theorem createRecommendation_champion (c : Champion) (lane : Lane)
    (e : Option ℕ) : (createRecommendation c lane e).champion = c := by
  unfold createRecommendation
  split <;> rfl

theorem createRecommendation_reasons_ne (c : Champion) (lane : Lane)
    (e : Option ℕ) : (createRecommendation c lane e).reasons ≠ [] := by
  have h := statPart_reasons_ne c lane
  unfold createRecommendation
  split
  · simp only []
    split <;> split <;> simp [List.append_eq_nil, h]
  · exact h

theorem createRecommendation_score_withEnemy (c : Champion) (lane : Lane)
    (z : ℕ) (hz : z ≠ 0) :
    (createRecommendation c lane (some z)).score =
      (statPart c lane).1 +
        (if z ∈ getChampionsCounteredBy c.key then (15 : ℚ) else 0) -
        (if z ∈ getChampionCounters c.key then (10 : ℚ) else 0) := by
  unfold createRecommendation
  have ht : truthy (some z) = true := by simp [truthy, hz]
  rw [if_pos ht]
  simp only [Option.getD_some]
  by_cases h1 : z ∈ getChampionsCounteredBy c.key <;>
    by_cases h2 : z ∈ getChampionCounters c.key <;>
      simp [h1, h2, List.elem_iff, qAdd_eq, qSub_eq, List.contains]

theorem createRecommendation_score_noEnemy (c : Champion) (lane : Lane) :
    (createRecommendation c lane none).score = (statPart c lane).1 := rfl

theorem mem_getTraditional {champs : List Champion} {lane : Lane} {count : ℕ}
    {e : Option ℕ} {r : ChampionRecommendation}
    (h : r ∈ getTraditionalRecommendations champs lane count e) :
    ∃ c ∈ (champs.insertionSort (laneRel lane)).take (count * 2),
      r = createRecommendation c lane e := by
  have h1 := List.mem_of_mem_take h
  have h2 := (List.perm_insertionSort recRel _).mem_iff.mp h1
  rcases List.mem_map.mp h2 with ⟨c, hc, hce⟩
  exact ⟨c, hc, hce.symm⟩

theorem mem_getTraditional_eq_create {champs : List Champion} {lane : Lane}
    {count : ℕ} {e : Option ℕ} {r : ChampionRecommendation}
    (h : r ∈ getTraditionalRecommendations champs lane count e) :
    r = createRecommendation r.champion lane e := by
  rcases mem_getTraditional h with ⟨c, _, rfl⟩
  rw [createRecommendation_champion]

theorem getTraditional_sorted (champs : List Champion) (lane : Lane)
    (count : ℕ) (e : Option ℕ) :
    List.Sorted recRel (getTraditionalRecommendations champs lane count e) :=
  List.Pairwise.sublist (List.take_sublist _ _)
    (List.sorted_insertionSort recRel _)

theorem getTraditional_length_le (champs : List Champion) (lane : Lane)
    (count : ℕ) (e : Option ℕ) :
    (getTraditionalRecommendations champs lane count e).length ≤ count := by
  unfold getTraditionalRecommendations
  simp [List.length_take_le]

theorem getTraditional_reasons_ne {champs : List Champion} {lane : Lane}
    {count : ℕ} {e : Option ℕ} {r : ChampionRecommendation}
    (h : r ∈ getTraditionalRecommendations champs lane count e) :
    r.reasons ≠ [] := by
  rcases mem_getTraditional h with ⟨c, _, rfl⟩
  exact createRecommendation_reasons_ne c lane e

theorem mem_take_of_sorted_score {l : List ChampionRecommendation} {k : ℕ}
    (hs : List.Sorted recRel l) {x y : ChampionRecommendation}
    (hx : x ∈ l) (hy : y ∈ l.take k) (hxy : y.score < x.score) :
    x ∈ l.take k := by
  by_contra hnx
  have hxd : x ∈ l.drop k := by
    have hx2 : x ∈ l.take k ++ l.drop k := by
      rw [List.take_append_drop]; exact hx
    rcases List.mem_append.mp hx2 with h | h
    · exact absurd h hnx
    · exact h
  have hp : List.Pairwise recRel (l.take k ++ l.drop k) := by
    rw [List.take_append_drop]; exact hs
  have hrel := (List.pairwise_append.mp hp).2.2 y hy x hxd
  exact absurd hrel (not_le.mpr hxy)

theorem addIntros_length (lane : Lane) (rand : ℕ → ℕ) :
    ∀ (i : ℕ) (l : List ChampionRecommendation),
      (addIntros lane rand i l).length = l.length
  | _, [] => rfl
  | i, _ :: rest => by
    simp [addIntros, addIntros_length lane rand (i + 1) rest]

theorem addIntros_reasons_ne {lane : Lane} {rand : ℕ → ℕ} :
    ∀ {i : ℕ} {l : List ChampionRecommendation}
      {r : ChampionRecommendation}, r ∈ addIntros lane rand i l →
      r.reasons ≠ [] := by
  intro i l
  induction l generalizing i with
  | nil => intro r h; simp [addIntros] at h
  | cons a rest ih =>
    intro r h
    rcases List.mem_cons.mp h with rfl | h2
    · simp
    · exact ih h2

theorem addIntros_score_mem {lane : Lane} {rand : ℕ → ℕ} :
    ∀ {i : ℕ} {l : List ChampionRecommendation}
      {r : ChampionRecommendation}, r ∈ addIntros lane rand i l →
      ∃ r0 ∈ l, r.score = r0.score := by
  intro i l
  induction l generalizing i with
  | nil => intro r h; simp [addIntros] at h
  | cons a rest ih =>
    intro r h
    rcases List.mem_cons.mp h with rfl | h2
    · exact ⟨a, List.mem_cons_self a rest, rfl⟩
    · rcases ih h2 with ⟨r0, hr0, hs⟩
      exact ⟨r0, List.mem_cons_of_mem a hr0, hs⟩

theorem addIntros_pairwise {lane : Lane} {rand : ℕ → ℕ} :
    ∀ {i : ℕ} {l : List ChampionRecommendation},
      List.Pairwise recRel l →
      List.Pairwise recRel (addIntros lane rand i l) := by
  intro i l
  induction l generalizing i with
  | nil => intro _; simp [addIntros]
  | cons a rest ih =>
    intro h
    rcases List.pairwise_cons.mp h with ⟨ha, hrest⟩
    refine List.pairwise_cons.mpr ⟨?_, ih hrest⟩
    intro r hr
    rcases addIntros_score_mem hr with ⟨r0, hr0, hs⟩
    show r.score ≤ _
    simpa [recRel, hs] using ha r0 hr0

theorem simulate_sorted (champs : List Champion) (lane : Lane) (count : ℕ)
    (e : Option ℕ) (rand : ℕ → ℕ) :
    List.Sorted recRel (simulateAIRecommendations champs lane count e rand) :=
  addIntros_pairwise (List.Pairwise.sublist (List.take_sublist _ _)
    (List.sorted_insertionSort recRel _))

theorem simulate_reasons_ne {champs : List Champion} {lane : Lane} {count : ℕ}
    {e : Option ℕ} {rand : ℕ → ℕ} {r : ChampionRecommendation}
    (h : r ∈ simulateAIRecommendations champs lane count e rand) :
    r.reasons ≠ [] :=
  addIntros_reasons_ne h

theorem simulate_length (champs : List Champion) (lane : Lane) (count : ℕ)
    (e : Option ℕ) (rand : ℕ → ℕ) :
    (simulateAIRecommendations champs lane count e rand).length =
      min count champs.length := by
  unfold simulateAIRecommendations
  simp [addIntros_length, List.length_take, List.length_insertionSort]

theorem simulate_length_le (champs : List Champion) (lane : Lane) (count : ℕ)
    (e : Option ℕ) (rand : ℕ → ℕ) :
    (simulateAIRecommendations champs lane count e rand).length ≤ count := by
  rw [simulate_length]
  exact min_le_left _ _

/-- Invariant of the recommendation cache: every entry the program ever
writes is sorted by non-increasing score and every stored recommendation has
at least one reason. -/
def cacheOK : Option (List ChampionRecommendation) → Prop
  | none => True
  | some l => List.Sorted recRel l ∧ ∀ r ∈ l, r.reasons ≠ []

theorem recommendCompute_spec (champs : List Champion) (lane : Lane)
    (count : ℕ) (e : Option ℕ) (rand : ℕ → ℕ) :
    ((recommend.recommendCompute champs lane count e rand).1.length ≤ count ∧
     List.Sorted recRel (recommend.recommendCompute champs lane count e
       rand).1 ∧
     (∀ r ∈ (recommend.recommendCompute champs lane count e rand).1,
       r.reasons ≠ [])) ∧
    cacheOK (recommend.recommendCompute champs lane count e rand).2 := by
  unfold recommend.recommendCompute
  simp only []
  split
  · exact ⟨⟨simulate_length_le _ _ _ _ _, simulate_sorted _ _ _ _ _,
      fun r hr => simulate_reasons_ne hr⟩,
      ⟨simulate_sorted _ _ _ _ _, fun r hr => simulate_reasons_ne hr⟩⟩
  · exact ⟨⟨getTraditional_length_le _ _ _ _, getTraditional_sorted _ _ _ _,
      fun r hr => getTraditional_reasons_ne hr⟩,
      ⟨simulate_sorted _ _ _ _ _, fun r hr => simulate_reasons_ne hr⟩⟩

theorem recommend_none_eq (champs : List Champion) (lane : Lane) (count : ℕ)
    (e : Option ℕ) (rand : ℕ → ℕ) :
    recommend none champs lane count e rand =
      recommend.recommendCompute champs lane count e rand := rfl

/-- C1: for every champion list supplied by the Statistics Store, every lane,
every positive count and every reachable cache state (characterized by the
invariant `cacheOK`, which the second conjunct shows every call preserves),
`recommend` returns at most `count` recommendations, sorted by non-increasing
score, and every returned recommendation has a non-empty reason list. -/
theorem C1_recommend_bounded_sorted_reasoned
    (cache : Option (List ChampionRecommendation))
    (champs : List Champion) (lane : Lane) (count : ℕ) (e : Option ℕ)
    (rand : ℕ → ℕ) (_hcount : 0 < count) (hok : cacheOK cache) :
    ((recommend cache champs lane count e rand).1.length ≤ count ∧
     List.Sorted recRel (recommend cache champs lane count e rand).1 ∧
     ∀ r ∈ (recommend cache champs lane count e rand).1, r.reasons ≠ []) ∧
    cacheOK (recommend cache champs lane count e rand).2 := by
  rcases cache with _ | l
  · rw [recommend_none_eq]
    exact recommendCompute_spec champs lane count e rand
  · by_cases hl : 0 < l.length
    · by_cases hc2 : count ≤ l.length
      · have hr : recommend (some l) champs lane count e rand =
            (if 0 < (l.take count).length then ((l.take count), some l)
             else (getTraditionalRecommendations champs lane count e,
               some l)) := by
          simp [recommend, loadFromCache, hl, hc2]
        rw [hr]
        split
        · exact ⟨⟨List.length_take_le _ _,
            List.Pairwise.sublist (List.take_sublist _ _) hok.1,
            fun r hrr => hok.2 r (List.mem_of_mem_take hrr)⟩, hok⟩
        · exact ⟨⟨getTraditional_length_le _ _ _ _,
            getTraditional_sorted _ _ _ _,
            fun r hrr => getTraditional_reasons_ne hrr⟩, hok⟩
      · have hr : recommend (some l) champs lane count e rand =
            recommend.recommendCompute champs lane count e rand := by
          simp [recommend, loadFromCache, hl, hc2]
        rw [hr]
        exact recommendCompute_spec champs lane count e rand
    · have hr : recommend (some l) champs lane count e rand =
          recommend.recommendCompute champs lane count e rand := by
        simp [recommend, loadFromCache, hl]
      rw [hr]
      exact recommendCompute_spec champs lane count e rand

/-- Witness for C1 at a concrete input. -/
theorem C1_recommend_bounded_sorted_reasoned_witness :
    (0 < 1 ∧ cacheOK none) ∧
    (((recommend none [] Lane.TOP 1 none (fun _ => 0)).1.length ≤ 1 ∧
      List.Sorted recRel (recommend none [] Lane.TOP 1 none
        (fun _ => 0)).1 ∧
      ∀ r ∈ (recommend none [] Lane.TOP 1 none (fun _ => 0)).1,
        r.reasons ≠ []) ∧
     cacheOK (recommend none [] Lane.TOP 1 none (fun _ => 0)).2) :=
  ⟨⟨by decide, trivial⟩,
   C1_recommend_bounded_sorted_reasoned none [] Lane.TOP 1 none (fun _ => 0)
     (by decide) trivial⟩

/-- C2: with the same opponent id passed to both, a candidate that the
matchup table records as countering the opponent scores strictly above a
candidate with equal stat-adjusted base score and no recorded counter
relationship with the opponent, and is therefore ranked strictly earlier in
the output of the traditional engine whenever both appear. -/
theorem C2_counter_dominance (champs : List Champion) (lane : Lane)
    (count : ℕ) (A B : Champion) (z : ℕ) (hz : z ≠ 0)
    (hbase : (statPart A lane).1 = (statPart B lane).1)
    (hA : z ∈ getChampionsCounteredBy A.key)
    (hB1 : z ∉ getChampionsCounteredBy B.key)
    (hB2 : z ∉ getChampionCounters B.key) :
    (createRecommendation A lane (some z)).score >
      (createRecommendation B lane (some z)).score ∧
    ∀ i j : Fin (getTraditionalRecommendations champs lane count
        (some z)).length,
      ((getTraditionalRecommendations champs lane count (some z)).get
        i).champion = A →
      ((getTraditionalRecommendations champs lane count (some z)).get
        j).champion = B → i < j := by
  have hsc : (createRecommendation A lane (some z)).score >
      (createRecommendation B lane (some z)).score := by
    rw [createRecommendation_score_withEnemy A lane z hz,
        createRecommendation_score_withEnemy B lane z hz]
    rw [if_pos hA, if_neg hB1, if_neg hB2, hbase]
    by_cases h2 : z ∈ getChampionCounters A.key
    · rw [if_pos h2]; linarith
    · rw [if_neg h2]; linarith
  refine ⟨hsc, ?_⟩
  intro i j hiA hjB
  have hAB : A ≠ B := by
    intro h
    rw [h] at hA
    exact hB1 hA
  have hmemi : (getTraditionalRecommendations champs lane count
      (some z)).get i ∈ getTraditionalRecommendations champs lane count
      (some z) := (getTraditionalRecommendations champs lane count
      (some z)).get_mem i.1 i.2
  have hmemj : (getTraditionalRecommendations champs lane count
      (some z)).get j ∈ getTraditionalRecommendations champs lane count
      (some z) := (getTraditionalRecommendations champs lane count
      (some z)).get_mem j.1 j.2
  have hi2 : (getTraditionalRecommendations champs lane count (some z)).get i
      = createRecommendation A lane (some z) := by
    have h := mem_getTraditional_eq_create hmemi
    rw [hiA] at h
    exact h
  have hj2 : (getTraditionalRecommendations champs lane count (some z)).get j
      = createRecommendation B lane (some z) := by
    have h := mem_getTraditional_eq_create hmemj
    rw [hjB] at h
    exact h
  by_contra hij
  push_neg at hij
  rcases lt_or_eq_of_le hij with hlt | heq
  · have hs := getTraditional_sorted champs lane count (some z)
    have hrel := List.pairwise_iff_get.mp hs j i hlt
    rw [hi2, hj2] at hrel
    exact absurd hrel (not_le.mpr hsc)
  · apply hAB
    rw [← hiA, ← hjB, heq]

/-- Concrete champion used by witnesses: key 266, whose matchup entry lists
122 among the champions it counters. -/
def wChampCounter : Champion :=
  { id := 266, name := "Xxx", key := 266, title := "t", winRate := mkRat 1 2,
    pickRate := mkRat 1 20, banRate := 0, tier := none,
    lanes := flatLanes (mkRat 1 2) (mkRat 1 20) 5 }

/-- Concrete champion used by witnesses: key 500, absent from the matchup
table, with the same stats as `wChampCounter`. -/
def wChampNeutral : Champion :=
  { id := 500, name := "Yyy", key := 500, title := "t", winRate := mkRat 1 2,
    pickRate := mkRat 1 20, banRate := 0, tier := none,
    lanes := flatLanes (mkRat 1 2) (mkRat 1 20) 5 }

/-- Witness for C2 at a concrete input. -/
theorem C2_counter_dominance_witness :
    ((122 : ℕ) ≠ 0 ∧
     (statPart wChampCounter Lane.TOP).1 = (statPart wChampNeutral
       Lane.TOP).1 ∧
     122 ∈ getChampionsCounteredBy wChampCounter.key ∧
     122 ∉ getChampionsCounteredBy wChampNeutral.key ∧
     122 ∉ getChampionCounters wChampNeutral.key) ∧
    ((createRecommendation wChampCounter Lane.TOP (some 122)).score >
      (createRecommendation wChampNeutral Lane.TOP (some 122)).score ∧
     ∀ i j : Fin (getTraditionalRecommendations [wChampNeutral, wChampCounter]
         Lane.TOP 2 (some 122)).length,
       ((getTraditionalRecommendations [wChampNeutral, wChampCounter]
         Lane.TOP 2 (some 122)).get i).champion = wChampCounter →
       ((getTraditionalRecommendations [wChampNeutral, wChampCounter]
         Lane.TOP 2 (some 122)).get j).champion = wChampNeutral → i < j) :=
  ⟨⟨by decide, by decide, by decide, by decide, by decide⟩,
   C2_counter_dominance [wChampNeutral, wChampCounter] Lane.TOP 2
     wChampCounter wChampNeutral 122 (by decide) (by decide) (by decide)
     (by decide) (by decide)⟩

/-- Two strings whose first characters differ are different; used to separate
interpolated reason strings from fixed ones. -/
theorem string_ne_of_head {s t : String}
    (h : s.data.head? ≠ t.data.head?) : s ≠ t :=
  fun e => h (congrArg (fun x => x.data.head?) e)

theorem head_of_append3 (a p b : String) (c : Char)
    (ha : a.data.head? = some c) :
    (a ++ p ++ b).data.head? = some c := by
  simp only [String.data_append, List.head?_append, ha]
  rfl

theorem rareStr_ne_append3 (a p b : String) (c : Char)
    (ha : a.data.head? = some c) (hc : c ≠ 'R') :
    a ++ p ++ b ≠ "Rare pick - opponents likely unfamiliar with matchup" := by
  apply string_ne_of_head
  rw [head_of_append3 a p b c ha]
  intro h
  apply hc
  have hr : ("Rare pick - opponents likely unfamiliar with matchup").data.head?
      = some 'R' := by decide
  rw [hr] at h
  exact Option.some.inj h

theorem rare_not_mem_winAdjust (ls : ChampionLaneStats) :
    "Rare pick - opponents likely unfamiliar with matchup" ∉
      (winAdjust ls).2 := by
  unfold winAdjust
  split
  · intro h
    simp only [List.mem_singleton] at h
    exact rareStr_ne_append3 "High win rate (" _ "%)" 'H' (by decide)
      (by decide) h.symm
  split
  · intro h
    simp only [List.mem_singleton] at h
    exact rareStr_ne_append3 "Above average win rate (" _ "%)" 'A' (by decide)
      (by decide) h.symm
  split
  · intro h
    simp only [List.mem_singleton] at h
    exact rareStr_ne_append3 "Challenging to master (" _ "% win rate)"
      'C' (by decide) (by decide) h.symm
  · simp

theorem rare_not_mem_tierAdjust (tier : Option String) :
    "Rare pick - opponents likely unfamiliar with matchup" ∉
      (tierAdjust tier).2 := by
  unfold tierAdjust
  split
  · decide
  split
  · decide
  split
  · decide
  split
  · decide
  · decide

theorem rare_not_mem_banAdjust (banRate : ℚ) :
    "Rare pick - opponents likely unfamiliar with matchup" ∉
      (banAdjust banRate).2 := by
  unfold banAdjust
  split
  · intro h
    simp only [List.mem_singleton] at h
    exact rareStr_ne_append3 "Frequently banned (" _ "%) - very strong currently"
      'F' (by decide) (by decide) h.symm
  split
  · intro h
    simp only [List.mem_singleton] at h
    exact rareStr_ne_append3 "Often banned (" _ "%) - strong pick"
      'O' (by decide) (by decide) h.symm
  · decide

theorem rare_not_mem_skillAdjust (name : String) (ls : ChampionLaneStats) :
    "Rare pick - opponents likely unfamiliar with matchup" ∉
      (skillAdjust name ls).2 := by
  unfold skillAdjust
  split
  · split
    · decide
    · decide
  · decide

theorem rare_not_mem_synergyAdjust (name : String) (lane : Lane) :
    "Rare pick - opponents likely unfamiliar with matchup" ∉
      (synergyAdjust name lane).2 := by
  unfold synergyAdjust
  split
  · intro h
    simp only [List.mem_singleton] at h
    exact rareStr_ne_append3 "Particularly strong in " _ " role"
      'P' (by decide) (by decide) h.symm
  · decide

theorem pickAdjust_of_rare (ls : ChampionLaneStats)
    (hp : ls.pickRate < mkRat 1 100) :
    pickAdjust ls = (mkRat 3 10, ["Uncommon pick - may surprise opponents"])
    := by
  have h1 : (mkRat 1 100 : ℚ) ≤ mkRat 15 100 := by decide
  have h2 : (mkRat 1 100 : ℚ) ≤ mkRat 1 10 := by decide
  have h3 : (mkRat 1 100 : ℚ) < mkRat 3 100 := by decide
  unfold pickAdjust
  rw [if_neg (by simp only [not_lt]; linarith),
      if_neg (by simp only [not_lt]; linarith),
      if_pos (by linarith)]

theorem statPart_reasons_of_pick_ne (c : Champion) (lane : Lane)
    (hne : (pickAdjust (c.lanes.get lane)).2 ≠ []) :
    (statPart c lane).2 =
      (winAdjust (c.lanes.get lane)).2 ++ (pickAdjust (c.lanes.get lane)).2 ++
      (tierAdjust c.tier).2 ++ (banAdjust c.banRate).2 ++
      (skillAdjust c.name (c.lanes.get lane)).2 ++
      (synergyAdjust c.name lane).2 := by
  unfold statPart
  simp only []
  rw [if_neg]
  intro h
  rw [List.isEmpty_iff] at h
  simp only [List.append_eq_nil] at h
  exact hne h.1.1.1.1.2

/-- C3 (amended): a champion whose pick rate in the requested lane is below
0.01 receives only the uncommon-pick adjustment (bonus 0.3 with the uncommon
reason); the rare band is unreachable because the pick-rate bands form an
exclusive else-if chain checked in the order greater than 0.15, greater than
0.1, less than 0.03, less than 0.01. -/
theorem C3_amended_only_uncommon (c : Champion) (lane : Lane) (e : Option ℕ)
    (hp : (c.lanes.get lane).pickRate < mkRat 1 100) :
    pickAdjust (c.lanes.get lane) =
      (mkRat 3 10, ["Uncommon pick - may surprise opponents"]) ∧
    "Uncommon pick - may surprise opponents" ∈
      (createRecommendation c lane e).reasons ∧
    "Rare pick - opponents likely unfamiliar with matchup" ∉
      (createRecommendation c lane e).reasons := by
  have hpick := pickAdjust_of_rare _ hp
  have hne : (pickAdjust (c.lanes.get lane)).2 ≠ [] := by
    rw [hpick]
    simp
  have hsp := statPart_reasons_of_pick_ne c lane hne
  have hu : "Uncommon pick - may surprise opponents" ∈ (statPart c lane).2 := by
    rw [hsp, hpick]
    simp
  have hrsp : "Rare pick - opponents likely unfamiliar with matchup" ∉
      (statPart c lane).2 := by
    rw [hsp, hpick]
    intro h
    simp only [List.mem_append] at h
    rcases h with ((((h | h) | h) | h) | h) | h
    · exact rare_not_mem_winAdjust _ h
    · exact absurd h (by decide)
    · exact rare_not_mem_tierAdjust _ h
    · exact rare_not_mem_banAdjust _ h
    · exact rare_not_mem_skillAdjust _ _ h
    · exact rare_not_mem_synergyAdjust _ _ h
  refine ⟨hpick, ?_, ?_⟩
  · unfold createRecommendation
    split
    · simp only []
      split <;> split <;> (try simp only [List.mem_append]) <;> tauto
    · exact hu
  · unfold createRecommendation
    split
    · simp only []
      split <;> split <;> intro h <;> (try simp only [List.mem_append] at h)
      · rcases h with (h | h) | h
        · exact hrsp h
        · simp only [List.mem_singleton] at h
          exact rareStr_ne_append3 "Strong counter against " _ "" 'S'
            (by decide) (by decide) h.symm
        · simp only [List.mem_singleton] at h
          exact rareStr_ne_append3 "Be careful - countered by " _ "" 'B'
            (by decide) (by decide) h.symm
      · rcases h with h | h
        · exact hrsp h
        · simp only [List.mem_singleton] at h
          exact rareStr_ne_append3 "Be careful - countered by " _ "" 'B'
            (by decide) (by decide) h.symm
      · rcases h with h | h
        · exact hrsp h
        · simp only [List.mem_singleton] at h
          exact rareStr_ne_append3 "Strong counter against " _ "" 'S'
            (by decide) (by decide) h.symm
      · exact hrsp h
    · exact hrsp

/-- Concrete champion used by C3: pick rate 0.005, below the 0.01 band. -/
def wChampRarePick : Champion :=
  { id := 5, name := "Aaa", key := 5, title := "t", winRate := mkRat 1 2,
    pickRate := mkRat 1 200, banRate := 0, tier := none,
    lanes := flatLanes (mkRat 1 2) (mkRat 1 200) 5 }

/-- Counterexample for C3 as stated: at pick rate 0.005 the scoring emits only
the uncommon reason with bonus 0.3 (base 5 becomes 5.3), not both low-pick
reasons and not the combined bonus. -/
theorem C3_counterexample :
    (createRecommendation wChampRarePick Lane.TOP none).reasons =
      ["Uncommon pick - may surprise opponents"] ∧
    "Rare pick - opponents likely unfamiliar with matchup" ∉
      (createRecommendation wChampRarePick Lane.TOP none).reasons ∧
    (createRecommendation wChampRarePick Lane.TOP none).score = mkRat 53 10 :=
  by decide

/-- Witness for the amended C3 at a concrete input. -/
theorem C3_amended_only_uncommon_witness :
    ((wChampRarePick.lanes.get Lane.TOP).pickRate < mkRat 1 100) ∧
    (pickAdjust (wChampRarePick.lanes.get Lane.TOP) =
      (mkRat 3 10, ["Uncommon pick - may surprise opponents"]) ∧
     "Uncommon pick - may surprise opponents" ∈
      (createRecommendation wChampRarePick Lane.TOP none).reasons ∧
     "Rare pick - opponents likely unfamiliar with matchup" ∉
      (createRecommendation wChampRarePick Lane.TOP none).reasons) :=
  ⟨by decide, C3_amended_only_uncommon wChampRarePick Lane.TOP none
    (by decide)⟩

/-- C4 (amended): the traditional engine computes final scores only for the
top `count * 2` champions by the pre-aggregated lane score; every returned
recommendation comes from that candidate pool, and within the pool no
candidate whose final score strictly beats a returned one is excluded, with
truncation to `count` applied after ranking by final score. -/
theorem C4_amended_prefilter_then_rank (champs : List Champion) (lane : Lane)
    (count : ℕ)
    (e : Option ℕ) :
    (∀ r ∈ getTraditionalRecommendations champs lane count e,
      r.champion ∈ (champs.insertionSort (laneRel lane)).take (count * 2)) ∧
    (∀ c ∈ (champs.insertionSort (laneRel lane)).take (count * 2),
      ∀ r ∈ getTraditionalRecommendations champs lane count e,
        r.score < (createRecommendation c lane e).score →
          createRecommendation c lane e ∈
            getTraditionalRecommendations champs lane count e) ∧
    (getTraditionalRecommendations champs lane count e).length ≤ count := by
  have hdef : getTraditionalRecommendations champs lane count e =
      ((((champs.insertionSort (laneRel lane)).take (count * 2)).map
        (fun c => createRecommendation c lane e)).insertionSort recRel).take
        count := rfl
  refine ⟨?_, ?_, getTraditional_length_le champs lane count e⟩
  · intro r hr
    rcases mem_getTraditional hr with ⟨c, hc, rfl⟩
    rw [createRecommendation_champion]
    exact hc
  · intro c hc r hr hscore
    have hmap : createRecommendation c lane e ∈
        (((champs.insertionSort (laneRel lane)).take (count * 2)).map
          (fun c => createRecommendation c lane e)) :=
      List.mem_map_of_mem _ hc
    have hfull : createRecommendation c lane e ∈
        ((((champs.insertionSort (laneRel lane)).take (count * 2)).map
          (fun c => createRecommendation c lane e)).insertionSort recRel) :=
      (List.perm_insertionSort recRel _).mem_iff.mpr hmap
    rw [hdef] at hr ⊢
    exact mem_take_of_sorted_score (List.sorted_insertionSort recRel _)
      hfull hr hscore

/-- Concrete champion used by C4: neutral stats, lane score 5.0. -/
def wChampHighBase : Champion :=
  { id := 1, name := "Aaa", key := 1, title := "t", winRate := mkRat 1 2,
    pickRate := mkRat 1 20, banRate := 0, tier := none,
    lanes := flatLanes (mkRat 1 2) (mkRat 1 20) 5 }

/-- Concrete champion used by C4: neutral stats, lane score 4.9. -/
def wChampMidBase : Champion :=
  { id := 2, name := "Bbb", key := 2, title := "t", winRate := mkRat 1 2,
    pickRate := mkRat 1 20, banRate := 0, tier := none,
    lanes := flatLanes (mkRat 1 2) (mkRat 1 20) (mkRat 49 10) }

/-- Concrete champion used by C4: lane score 4.8 but win rate 0.54, whose
final score 5.8 is the strict maximum of the three. -/
def wChampStrongStats : Champion :=
  { id := 3, name := "Ccc", key := 3, title := "t", winRate := mkRat 54 100,
    pickRate := mkRat 1 20, banRate := 0, tier := none,
    lanes := flatLanes (mkRat 54 100) (mkRat 1 20) (mkRat 48 10) }

/-- Counterexample for C4 as stated: with count 1 the champion holding the
strictly highest final score is cut by the `count * 2` base-score prefilter
and never reaches final scoring, so it is excluded from candidacy before
final scoring. -/
theorem C4_counterexample :
    ((getTraditionalRecommendations [wChampHighBase, wChampMidBase,
        wChampStrongStats] Lane.TOP 1 none).map
      (fun r => r.champion.name) = ["Aaa"]) ∧
    (createRecommendation wChampStrongStats Lane.TOP none).score >
      (createRecommendation wChampHighBase Lane.TOP none).score ∧
    (createRecommendation wChampStrongStats Lane.TOP none).score >
      (createRecommendation wChampMidBase Lane.TOP none).score := by decide

/-- Witness for the amended C4 at a concrete input. -/
theorem C4_amended_prefilter_then_rank_witness :
    (∀ r ∈ getTraditionalRecommendations [wChampHighBase, wChampMidBase,
        wChampStrongStats] Lane.TOP 1 none,
      r.champion ∈ (([wChampHighBase, wChampMidBase,
        wChampStrongStats].insertionSort (laneRel Lane.TOP)).take (1 * 2))) ∧
    (∀ c ∈ (([wChampHighBase, wChampMidBase,
        wChampStrongStats].insertionSort (laneRel Lane.TOP)).take (1 * 2)),
      ∀ r ∈ getTraditionalRecommendations [wChampHighBase, wChampMidBase,
        wChampStrongStats] Lane.TOP 1 none,
        r.score < (createRecommendation c Lane.TOP none).score →
          createRecommendation c Lane.TOP none ∈
            getTraditionalRecommendations [wChampHighBase, wChampMidBase,
              wChampStrongStats] Lane.TOP 1 none) ∧
    (getTraditionalRecommendations [wChampHighBase, wChampMidBase,
      wChampStrongStats] Lane.TOP 1 none).length ≤ 1 :=
  C4_amended_prefilter_then_rank [wChampHighBase, wChampMidBase,
    wChampStrongStats] Lane.TOP 1 none

/-- C6 (amended): each canonicalization path has its own synonym table.  The
shell path maps MID and MIDDLE to the MID role and SUPPORT and SUP to the
SUPPORT role but does not recognize UTILITY; the client-session path maps
MIDDLE to MID and UTILITY to SUPPORT but recognizes neither MID nor SUPPORT
nor SUP; on each path every string outside its table canonicalizes to no
role. -/
theorem C6_amended_per_path_tables :
    (shellCanonLane "MID" = some Lane.MID ∧
     shellCanonLane "MIDDLE" = some Lane.MID ∧
     shellCanonLane "SUPPORT" = some Lane.SUPPORT ∧
     shellCanonLane "SUP" = some Lane.SUPPORT ∧
     shellCanonLane "UTILITY" = none) ∧
    (clientLaneMap "MIDDLE" = some Lane.MID ∧
     clientLaneMap "UTILITY" = some Lane.SUPPORT ∧
     clientLaneMap "MID" = none ∧
     clientLaneMap "SUPPORT" = none ∧
     clientLaneMap "SUP" = none) ∧
    (∀ s : String, strUpper s ∉ shellLaneList → shellCanonLane s = none) ∧
    (∀ s : String,
      s ∉ (["TOP", "JUNGLE", "MIDDLE", "BOTTOM", "UTILITY"] : List String) →
      clientLaneMap s = none) := by
  refine ⟨by decide, by decide, ?_, ?_⟩
  · intro s h
    unfold shellCanonLane
    simp only []
    rw [if_neg (fun hc => h (List.elem_iff.mp hc))]
  · intro s h
    have h1 : s ≠ "TOP" := fun e => h (by rw [e]; decide)
    have h2 : s ≠ "JUNGLE" := fun e => h (by rw [e]; decide)
    have h3 : s ≠ "MIDDLE" := fun e => h (by rw [e]; decide)
    have h4 : s ≠ "BOTTOM" := fun e => h (by rw [e]; decide)
    have h5 : s ≠ "UTILITY" := fun e => h (by rw [e]; decide)
    simp [clientLaneMap, h1, h2, h3, h4, h5]

/-- Counterexample for C6 as stated: MIDDLE and MID do not canonicalize to
the same role on the client-session path, and UTILITY and SUPPORT do not
canonicalize to the same role on the shell path. -/
theorem C6_counterexample :
    (clientLaneMap "MID" = none ∧ clientLaneMap "MIDDLE" = some Lane.MID) ∧
    (shellCanonLane "UTILITY" = none ∧
     shellCanonLane "SUPPORT" = some Lane.SUPPORT) := by decide

/-- Witness for the amended C6, instantiating its universally quantified
parts at a concrete unrecognized string. -/
theorem C6_amended_per_path_tables_witness :
    (strUpper "minion" ∉ shellLaneList ∧ shellCanonLane "minion" = none) ∧
    ("minion" ∉ (["TOP", "JUNGLE", "MIDDLE", "BOTTOM", "UTILITY"] :
       List String) ∧
     clientLaneMap "minion" = none) :=
  ⟨⟨by decide,
    C6_amended_per_path_tables.2.2.1 "minion" (by decide)⟩,
   ⟨by decide,
    C6_amended_per_path_tables.2.2.2 "minion" (by decide)⟩⟩

/-- Two deliveries with identical resolved role and opponent, starting from
an active state whose stored lane already covers the role: the role path never
fires, the opponent path fires at most once, and not at all when the stored
opponent already equals the resolved one. -/
theorem two_more_steps (cl : Option Lane) (ls : Option ℕ) (r : Option Lane)
    (e : Option ℕ) (hlane : ∀ L, r = some L → cl = some L) :
    (champSelectRun ⟨true, cl, ls⟩ [(r, e), (r, e)]).2 ≤ 1 ∧
    (ls = e → (champSelectRun ⟨true, cl, ls⟩ [(r, e), (r, e)]).2 = 0) := by
  cases r with
  | none =>
    by_cases ht : truthy e = true <;>
    by_cases his : cl.isSome = true <;>
    by_cases hne : e = ls <;>
      (simp [champSelectRun, champSelectStep, ht, his, hne]
       try
         intro h
         simp [h] at hne)
  | some L =>
    have hcl : cl = some L := hlane L rfl
    subst hcl
    by_cases ht : truthy e = true <;>
    by_cases hne : e = ls <;>
      (simp [champSelectRun, champSelectStep, ht, hne]
       try
         intro h
         simp [h] at hne)

theorem champSelectRun_cons (s : TrackState) (r : Option Lane) (e : Option ℕ)
    (rest : List (Option Lane × Option ℕ)) :
    (champSelectRun s ((r, e) :: rest)).2 =
      (champSelectStep s r e).2 +
      (champSelectRun (champSelectStep s r e).1 rest).2 := rfl

/-- C7 (amended): over three consecutive deliveries with identical resolved
role and opponent the state machine invokes the Engine at most twice - at most
once via the session-entry and role-change path and at most once via the
opponent path - and exactly zero times when the stored state already matches
the delivered role and opponent. -/
theorem C7_amended_debounce_bound (s : TrackState) (r : Option Lane)
    (e : Option ℕ) :
    (champSelectRun s [(r, e), (r, e), (r, e)]).2 ≤ 2 ∧
    (s.inChampSelect = true → s.currentLane = r → s.lastSeenEnemy = e →
      (champSelectRun s [(r, e), (r, e), (r, e)]).2 = 0) := by
  obtain ⟨inCS, cl, ls⟩ := s
  rw [champSelectRun_cons]
  cases inCS with
  | false =>
    have hstep : champSelectStep ⟨false, cl, ls⟩ r e =
        (⟨true, r, ls⟩, if r.isSome then 1 else 0) := by
      simp [champSelectStep]
    rw [hstep]
    dsimp only
    constructor
    · have h2 := (two_more_steps r ls r e (fun L h => h)).1
      have h1 : (if r.isSome = true then 1 else 0) ≤ 1 := by
        split <;> simp
      omega
    · intro hfalse
      exact absurd hfalse (by simp)
  | true =>
    constructor
    · cases r with
      | none =>
        have hstep : champSelectStep ⟨true, cl, ls⟩ none e =
            (⟨true, cl, if (truthy e && cl.isSome && decide (e ≠ ls)) = true
              then e else ls⟩,
             if (truthy e && cl.isSome && decide (e ≠ ls)) = true
              then 1 else 0) := by
          simp only [champSelectStep]
          simp
        rw [hstep]
        dsimp only
        by_cases hb : (truthy e && cl.isSome && decide (e ≠ ls)) = true
        · rw [if_pos hb, if_pos hb]
          have h2 := (two_more_steps cl e none e
            (fun L h => Option.noConfusion h)).2 rfl
          omega
        · rw [if_neg hb, if_neg hb]
          have h2 := (two_more_steps cl ls none e
            (fun L h => Option.noConfusion h)).1
          omega
      | some L =>
        by_cases hcl : cl = some L
        · subst hcl
          have hstep : champSelectStep ⟨true, some L, ls⟩ (some L) e =
              (⟨true, some L, if (truthy e && decide (e ≠ ls)) = true
                then e else ls⟩,
               if (truthy e && decide (e ≠ ls)) = true then 1 else 0) := by
            simp only [champSelectStep]
            simp
          rw [hstep]
          dsimp only
          by_cases hb : (truthy e && decide (e ≠ ls)) = true
          · rw [if_pos hb, if_pos hb]
            have h2 := (two_more_steps (some L) e (some L) e
              (fun _ h => h ▸ rfl)).2 rfl
            omega
          · rw [if_neg hb, if_neg hb]
            have h2 := (two_more_steps (some L) ls (some L) e
              (fun _ h => h ▸ rfl)).1
            omega
        · have hstep : champSelectStep ⟨true, cl, ls⟩ (some L) e =
              (⟨true, some L, if (truthy e && decide (e ≠ ls)) = true
                then e else ls⟩,
               1 + (if (truthy e && decide (e ≠ ls)) = true
                 then 1 else 0)) := by
            simp only [champSelectStep]
            simp [hcl]
          rw [hstep]
          dsimp only
          by_cases hb : (truthy e && decide (e ≠ ls)) = true
          · rw [if_pos hb, if_pos hb]
            have h2 := (two_more_steps (some L) e (some L) e
              (fun _ h => h ▸ rfl)).2 rfl
            omega
          · rw [if_neg hb, if_neg hb]
            have h2 := (two_more_steps (some L) ls (some L) e
              (fun _ h => h ▸ rfl)).1
            omega
    · intro _ hcl hls
      dsimp only at hcl hls
      subst hcl
      subst hls
      have hstep : champSelectStep ⟨true, cl, ls⟩ cl ls =
          (⟨true, cl, ls⟩, 0) := by
        cases cl <;> simp [champSelectStep]
      rw [hstep]
      dsimp only
      have h2 := (two_more_steps cl ls cl ls (fun _ h => h)).2 rfl
      omega

/-- Counterexample for C7 as stated: entering champion select with role TOP
and opponent 266 already visible yields two Engine invocations over three
identical deliveries - one at session entry and one when the opponent is first
recorded - although role and opponent are unchanged across the run. -/
theorem C7_counterexample :
    ¬ (champSelectRun ⟨false, none, none⟩
        [(some Lane.TOP, some 266), (some Lane.TOP, some 266),
         (some Lane.TOP, some 266)]).2 ≤ 1 ∧
    (champSelectRun ⟨false, none, none⟩
      [(some Lane.TOP, some 266), (some Lane.TOP, some 266),
       (some Lane.TOP, some 266)]).2 = 2 := by decide

/-- Witness for the amended C7 at a concrete matching state. -/
theorem C7_amended_debounce_bound_witness :
    (champSelectRun (⟨true, some Lane.TOP, some 266⟩ : TrackState)
      [(some Lane.TOP, some 266), (some Lane.TOP, some 266),
       (some Lane.TOP, some 266)]).2 ≤ 2 ∧
    (champSelectRun (⟨true, some Lane.TOP, some 266⟩ : TrackState)
      [(some Lane.TOP, some 266), (some Lane.TOP, some 266),
       (some Lane.TOP, some 266)]).2 = 0 :=
  ⟨(C7_amended_debounce_bound ⟨true, some Lane.TOP, some 266⟩
      (some Lane.TOP) (some 266)).1,
   (C7_amended_debounce_bound ⟨true, some Lane.TOP, some 266⟩
      (some Lane.TOP) (some 266)).2 rfl rfl rfl⟩

/-- C10: when the fresh per-lane cache holds at least `count` entries,
`AIRecommender.getRecommendations` returns its first `count` entries, so two
such calls differing in champion list, opponent id and random draws return
identical recommendations - the opponent has no influence in that state. -/
theorem C10_cache_ignores_opponent (cache : Option (List ChampionRecommendation))
    (l : List ChampionRecommendation) (champs1 champs2 : List Champion)
    (lane : Lane) (count : ℕ) (e1 e2 : Option ℕ) (rand1 rand2 : ℕ → ℕ)
    (hc : cache = some l) (h0 : 0 < l.length) (hcount : count ≤ l.length) :
    (aiGetRecommendations cache champs1 lane count e1 rand1).1 =
      l.take count ∧
    (aiGetRecommendations cache champs1 lane count e1 rand1).1 =
      (aiGetRecommendations cache champs2 lane count e2 rand2).1 := by
  subst hc
  simp [aiGetRecommendations, loadFromCache, h0, hcount]

theorem recommendCompute_nil (lane : Lane) (count : ℕ) (e : Option ℕ)
    (rand : ℕ → ℕ) :
    (recommend.recommendCompute [] lane count e rand).1 = [] := by
  simp [recommend.recommendCompute, simulateAIRecommendations,
    getTraditionalRecommendations, addIntros, List.take_nil]

/-- C8 (amended): when the Statistics Store yields an empty champion list,
`recommend` returns an empty list - and never an error, being a total
function - provided no fresh cached entry with at least `count`
recommendations exists for the lane; such a cache is served as-is even though
the Store is empty. -/
theorem C8_amended_empty_store_empty_output (cache : Option (List ChampionRecommendation)) (lane : Lane)
    (count : ℕ) (e : Option ℕ) (rand : ℕ → ℕ)
    (hmiss : ∀ l, cache = some l → l.length = 0 ∨ l.length < count) :
    (recommend cache [] lane count e rand).1 = [] := by
  rcases cache with _ | l
  · rw [recommend_none_eq]
    exact recommendCompute_nil lane count e rand
  · by_cases h0 : 0 < l.length
    · have hlt : l.length < count := by
        rcases hmiss l rfl with h | h
        · omega
        · exact h
      have hr : recommend (some l) [] lane count e rand =
          recommend.recommendCompute [] lane count e rand := by
        simp [recommend, loadFromCache, h0]
        omega
      rw [hr]
      exact recommendCompute_nil lane count e rand
    · have hr : recommend (some l) [] lane count e rand =
          recommend.recommendCompute [] lane count e rand := by
        simp [recommend, loadFromCache, h0]
      rw [hr]
      exact recommendCompute_nil lane count e rand

theorem champsAfterCompute_spec (champs : List Champion) (lane : Lane)
    (count : ℕ) (e : Option ℕ) (rand : ℕ → ℕ) :
    (champsAfterRecommend.champsAfterCompute champs lane count e
      rand).Perm champs ∧
    List.Sorted (laneRel lane) (champsAfterRecommend.champsAfterCompute
      champs lane count e rand) := by
  unfold champsAfterRecommend.champsAfterCompute
  simp only []
  split
  · exact ⟨List.perm_insertionSort _ _, List.sorted_insertionSort _ _⟩
  · exact ⟨(List.perm_insertionSort _ _).trans (List.perm_insertionSort _ _),
      List.sorted_insertionSort _ _⟩

/-- C9 (amended): a `recommend` call never adds, removes or alters a champion
- the Store array after the call is a permutation of the one before - but on
every path that recomputes (any cache miss) the array is reordered in place,
left sorted by the requested lane score in non-increasing order. -/
theorem C9_amended_perm_sorted_mutation (cache : Option (List ChampionRecommendation))
    (champs : List Champion) (lane : Lane) (count : ℕ) (e : Option ℕ)
    (rand : ℕ → ℕ) :
    (champsAfterRecommend cache champs lane count e rand).Perm champs ∧
    ((∀ l, cache = some l → l.length = 0 ∨ l.length < count) →
      List.Sorted (laneRel lane)
        (champsAfterRecommend cache champs lane count e rand)) := by
  rcases cache with _ | l
  · have hr : champsAfterRecommend none champs lane count e rand =
        champsAfterRecommend.champsAfterCompute champs lane count e rand :=
      rfl
    rw [hr]
    exact ⟨(champsAfterCompute_spec champs lane count e rand).1,
      fun _ => (champsAfterCompute_spec champs lane count e rand).2⟩
  · by_cases h0 : 0 < l.length
    · by_cases hc2 : count ≤ l.length
      · have hr : champsAfterRecommend (some l) champs lane count e rand =
            (if 0 < (l.take count).length then champs
             else champs.insertionSort (laneRel lane)) := by
          simp [champsAfterRecommend, loadFromCache, h0, hc2]
        rw [hr]
        constructor
        · split
          · exact List.Perm.refl champs
          · exact List.perm_insertionSort _ _
        · intro hmiss
          rcases hmiss l rfl with h | h <;> omega
      · have hr : champsAfterRecommend (some l) champs lane count e rand =
            champsAfterRecommend.champsAfterCompute champs lane count e
              rand := by
          simp [champsAfterRecommend, loadFromCache, h0]
          omega
        rw [hr]
        exact ⟨(champsAfterCompute_spec champs lane count e rand).1,
          fun _ => (champsAfterCompute_spec champs lane count e rand).2⟩
    · have hr : champsAfterRecommend (some l) champs lane count e rand =
          champsAfterRecommend.champsAfterCompute champs lane count e rand
          := by
        simp [champsAfterRecommend, loadFromCache, h0]
      rw [hr]
      exact ⟨(champsAfterCompute_spec champs lane count e rand).1,
        fun _ => (champsAfterCompute_spec champs lane count e rand).2⟩

/-- C5 (amended): a second `recommend` call served from the cache entry
written by a first call - which happens whenever the champion list has at
least `count` champions and `count` is positive - returns exactly the output
of the first call, for any champion list and random draws of the second; when
both calls recompute, the randomly chosen intro sentence may differ (see the
counterexample), so reason strings need not be identical. -/
theorem C5_amended_cache_pass_through (champs champs2 : List Champion) (lane : Lane) (count : ℕ)
    (rand1 rand2 : ℕ → ℕ) (h0 : 0 < count) (hlen : count ≤ champs.length) :
    (recommend ((recommend none champs lane count none rand1).2) champs2 lane
      count none rand2).1 = (recommend none champs lane count none rand1).1
    := by
  rw [recommend_none_eq]
  have hlenS : (simulateAIRecommendations
      ((champs.insertionSort (laneRel lane)).take (count * 3)) lane count
      none rand1).length = count := by
    rw [simulate_length, List.length_take, List.length_insertionSort]
    omega
  have hpos : 0 < (simulateAIRecommendations
      ((champs.insertionSort (laneRel lane)).take (count * 3)) lane count
      none rand1).length := by omega
  have hrc : recommend.recommendCompute champs lane count none rand1 =
      (simulateAIRecommendations ((champs.insertionSort (laneRel lane)).take
        (count * 3)) lane count none rand1,
       some (simulateAIRecommendations ((champs.insertionSort
         (laneRel lane)).take (count * 3)) lane count none rand1)) := by
    unfold recommend.recommendCompute
    simp only []
    rw [if_pos hpos]
  rw [hrc]
  have hc2 : count ≤ (simulateAIRecommendations
      ((champs.insertionSort (laneRel lane)).take (count * 3)) lane count
      none rand1).length := by omega
  have htake : (simulateAIRecommendations
      ((champs.insertionSort (laneRel lane)).take (count * 3)) lane count
      none rand1).take count = simulateAIRecommendations
      ((champs.insertionSort (laneRel lane)).take (count * 3)) lane count
      none rand1 := List.take_of_length_le (by omega)
  simp [recommend, loadFromCache, hpos, hc2, htake]

/-- Concrete cached recommendation used by witnesses and counterexamples. -/
def wCachedRec : ChampionRecommendation :=
  { champion := wChampHighBase, score := 1, reasons := ["cached reason"],
    counters := none, counteredBy := none }

/-- Counterexample for C5 as stated: with no usable cache, two calls on the
same champion list with different random draws return different reason
strings, because the AI-simulation path prepends an intro sentence chosen by
`Math.random`. -/
theorem C5_counterexample :
    (recommend none [wChampHighBase] Lane.TOP 1 none (fun _ => 0)).1 ≠
      (recommend none [wChampHighBase] Lane.TOP 1 none (fun _ => 1)).1 := by
  decide

/-- Witness for the amended C5 at a concrete input. -/
theorem C5_amended_cache_pass_through_witness :
    ((0 : ℕ) < 1 ∧ 1 ≤ ([wChampHighBase] : List Champion).length) ∧
    (recommend ((recommend none [wChampHighBase] Lane.TOP 1 none
      (fun _ => 0)).2) [] Lane.TOP 1 none (fun _ => 1)).1 =
      (recommend none [wChampHighBase] Lane.TOP 1 none (fun _ => 0)).1 :=
  ⟨⟨by decide, by decide⟩,
   C5_amended_cache_pass_through [wChampHighBase] [] Lane.TOP 1
     (fun _ => 0) (fun _ => 1) (by decide) (by decide)⟩

/-- Counterexample for C8 as stated: a fresh cache entry makes `recommend`
return a non-empty list even though the Statistics Store yielded an empty
champion list. -/
theorem C8_counterexample :
    (recommend (some [wCachedRec]) [] Lane.TOP 1 none (fun _ => 0)).1 =
      [wCachedRec] ∧
    (recommend (some [wCachedRec]) [] Lane.TOP 1 none (fun _ => 0)).1 ≠ []
    := by decide

/-- Witness for the amended C8 at a concrete input. -/
theorem C8_amended_empty_store_empty_output_witness :
    (∀ l : List ChampionRecommendation,
      (none : Option (List ChampionRecommendation)) = some l →
        l.length = 0 ∨ l.length < 5) ∧
    (recommend none [] Lane.TOP 5 none (fun _ => 0)).1 = [] :=
  ⟨fun _ h => Option.noConfusion h,
   C8_amended_empty_store_empty_output none Lane.TOP 5 none (fun _ => 0)
     (fun _ h => Option.noConfusion h)⟩

/-- Counterexample for C9 as stated: the champion array owned by the
Statistics Store is reordered in place by a `recommend` call - afterwards it
is sorted by the lane score, not in its original order. -/
theorem C9_counterexample :
    champsAfterRecommend none [wChampMidBase, wChampHighBase] Lane.TOP 1 none
      (fun _ => 0) = [wChampHighBase, wChampMidBase] ∧
    champsAfterRecommend none [wChampMidBase, wChampHighBase] Lane.TOP 1 none
      (fun _ => 0) ≠ [wChampMidBase, wChampHighBase] := by decide

/-- Witness for the amended C9 at a concrete input. -/
theorem C9_amended_perm_sorted_mutation_witness :
    (champsAfterRecommend none [wChampMidBase, wChampHighBase] Lane.TOP 1
      none (fun _ => 0)).Perm [wChampMidBase, wChampHighBase] ∧
    List.Sorted (laneRel Lane.TOP) (champsAfterRecommend none
      [wChampMidBase, wChampHighBase] Lane.TOP 1 none (fun _ => 0)) :=
  ⟨(C9_amended_perm_sorted_mutation none [wChampMidBase, wChampHighBase]
      Lane.TOP 1 none (fun _ => 0)).1,
   (C9_amended_perm_sorted_mutation none [wChampMidBase, wChampHighBase]
      Lane.TOP 1 none (fun _ => 0)).2 (fun _ h => Option.noConfusion h)⟩

/-- Witness for C10 at a concrete input. -/
theorem C10_cache_ignores_opponent_witness :
    ((some [wCachedRec] : Option (List ChampionRecommendation)) =
      some [wCachedRec] ∧ 0 < ([wCachedRec] :
        List ChampionRecommendation).length ∧
      1 ≤ ([wCachedRec] : List ChampionRecommendation).length) ∧
    ((aiGetRecommendations (some [wCachedRec]) [wChampHighBase] Lane.TOP 1
      (some 266) (fun _ => 0)).1 = ([wCachedRec] :
        List ChampionRecommendation).take 1 ∧
     (aiGetRecommendations (some [wCachedRec]) [wChampHighBase] Lane.TOP 1
      (some 266) (fun _ => 0)).1 =
      (aiGetRecommendations (some [wCachedRec]) [] Lane.TOP 1 none
        (fun _ => 1)).1) :=
  ⟨⟨rfl, by decide, by decide⟩,
   C10_cache_ignores_opponent (some [wCachedRec]) [wCachedRec]
     [wChampHighBase] [] Lane.TOP 1 (some 266) none (fun _ => 0)
     (fun _ => 1) rfl (by decide) (by decide)⟩
